import Mathlib

/-!
Shallow embedding of `wingmann::containers::vector` (vector.h) and proofs
about its specified behaviour.

The vector owns a contiguous buffer `data_` of `capacity_` slots of which the
first `size_` hold live elements.  The embedding models the live prefix as a
`List α` (`elems`), the allocated slot count as `capacity_`, and the buffer
identity (the address `data_` points to) as an abstract `Nat` (`addr`): a
reallocation hands out a different address, so address (in)equality models
pointer/iterator (in)stability.  Slots `[size, capacity)` are raw memory and
are never represented by a value.

Iterators of the source are thin pointer wrappers over `data_`; following the
interface contract (the offset of an element is the distance between the iterator
and `begin()`), an iterator argument or result is embedded as its offset
(a `Nat` index) from the buffer base.
-/

namespace Wingmann

/-- State of `wingmann::containers::vector`: live elements `elems`
(the constructed prefix `[0, size)` of the buffer), allocated slot count
`capacity_`, and the abstract address of the owned buffer. -/
structure vector (α : Type) where
  elems : List α
  capacity_ : Nat
  addr : Nat
deriving Repr, DecidableEq

namespace vector

/-- Method `size()` returns `size_`, the number of live elements. -/
def size (v : vector α) : Nat := v.elems.length

/-- Method `capacity()` returns `capacity_`. -/
def capacity (v : vector α) : Nat := v.capacity_

/-- The default-constructed vector: `data_{}` (null), `size_ = 0`,
`capacity_ = 0`. -/
def mk_default : vector α := ⟨[], 0, 0⟩

/-- The documented representation invariant: `size_ ≤ capacity_`. -/
def size_le_capacity (v : vector α) : Prop := v.size ≤ v.capacity

instance (v : vector α) : Decidable v.size_le_capacity := by
  unfold size_le_capacity; infer_instance

/-- Method `realloc_factor()`: the geometric growth factor. -/
def realloc_factor : Nat := 2

/-- One pass of the growth loop body:
`if (capacity_ == 0) capacity_ = 1; capacity_ *= realloc_factor();`. -/
def grow_once (c : Nat) : Nat := (if c = 0 then 1 else c) * realloc_factor

theorem lt_grow_once (c : Nat) : c < grow_once c := by
  unfold grow_once realloc_factor
  split <;> omega

/-- The `while (capacity_ < need)` part of the growth loop (checked after the
body has run at least once). -/
def grow_while (c need : Nat) : Nat :=
  if c < need then grow_while (grow_once c) need else c
termination_by need - c
decreasing_by
  have := lt_grow_once c
  omega

/-- The full `do { ... } while (capacity_ < need);` growth loop: the body runs
once, then repeats while the capacity is below `need`. -/
def grow_capacity (c need : Nat) : Nat := grow_while (grow_once c) need

theorem grow_while_ge (c need : Nat) : need ≤ grow_while c need := by
  generalize hm : need - c = m
  induction m using Nat.strong_induction_on generalizing c with
  | _ m ih =>
    rw [grow_while]
    by_cases h : c < need
    · rw [if_pos h]
      exact ih (need - grow_once c) (by have := lt_grow_once c; omega) _ rfl
    · rw [if_neg h]
      omega

theorem grow_capacity_ge (c need : Nat) : need ≤ grow_capacity c need :=
  grow_while_ge _ _

/-- Value-level effect of `reallocate_strong_guarantee(capacity)` for elements
whose relocation does not throw: all `size_` live elements are relocated in
order into a freshly allocated block of `capacity` slots (a new address), the
old block is destroyed and deallocated, and `capacity_` becomes the target.
(The heap-level model with a throwing copy constructor is
`reallocate_strong_guarantee` below.) -/
def relocate (v : vector α) (c : Nat) : vector α :=
  ⟨v.elems, c, v.addr + 1⟩

/-- Method `emplace(end(), x)` as reached from `push_back`/`emplace_back`.
If `size() + 1 < capacity()` the element is constructed in place at
`data_ + size()` and `size_` is incremented; otherwise the growth loop runs
(`do { if (capacity_ == 0) capacity_ = 1; capacity_ *= realloc_factor(); }
while (capacity_ < 1 + size());`), `reallocate_strong_guarantee(capacity_)`
relocates the live elements, and `shift_and_construct(size(), x)` places `x`
at offset `size()` (the shift loop is empty at the end position).
The boolean reports whether a reallocation happened. -/
def push_back (v : vector α) (x : α) : vector α × Bool :=
  if v.size + 1 < v.capacity then
    ({ v with elems := v.elems ++ [x] }, false)
  else
    let grown := grow_capacity v.capacity (1 + v.size)
    let v' := v.relocate grown
    ({ v' with elems := v'.elems ++ [x] }, true)

/-- A sequence of `push_back` calls starting from the default-constructed
vector. -/
def push_seq (xs : List α) : vector α :=
  xs.foldl (fun v x => (v.push_back x).1) mk_default

/-- Folding `push_back` over a list starting from an arbitrary vector. -/
def push_all (v : vector α) (ys : List α) : vector α :=
  ys.foldl (fun w y => (w.push_back y).1) v

/-- True iff none of the `push_back` calls in the sequence reallocates. -/
def push_all_no_realloc (v : vector α) : List α → Bool
  | [] => true
  | y :: ys =>
    let r := v.push_back y
    !r.2 && push_all_no_realloc r.1 ys

/-- Method `clear()`: `destruct(size_)` destroys the live elements and zeroes
`size_`; `data_` and `capacity_` are not touched. -/
def clear (v : vector α) : vector α := { v with elems := [] }

/-- The initializer-list constructor `vector(init_list_type values, ...)`:
`allocate(values.size())` obtains a fresh buffer with
`capacity_ = values.size()`, then `construct_init_list(values)` copies the
values in order and sets `size_`. -/
def of_init_list (xs : List α) : vector α := ⟨xs, xs.length, 1⟩

/-- Checked access `at(index)`: the element at `index` when
`index < size()`, otherwise `throw std::out_of_range(...)`. -/
def at_idx [Inhabited α] (v : vector α) (index : Nat) : Except Unit α :=
  if index < v.size then .ok (v.elems.getD index default) else .error ()

/-- Method `data()`: `(size() != 0) ? data_ : nullptr`, as an optional buffer
address. -/
def data (v : vector α) : Option Nat :=
  if v.size ≠ 0 then some v.addr else none

/-- Value-level effect of `shift_and_construct(index_pos, value, count)` on
the live contents: `count` copies of slots `[size, size+count)` onto
themselves (raw self-copies, no value change), the assignment loop shifts
`[index_pos, size)` right by `count`, the elements at
`[index_pos, index_pos+count)` are destroyed, and `count` copies of `value`
are constructed there.  Net: the tail from `index_pos` moves up by `count`
and `count` copies of `value` fill the gap.  The writes reach offset
`size + count - 1`, so the caller must have ensured
`size + count ≤ capacity`. -/
def shift_construct_list (l : List α) (index_pos count : Nat) (value : α) :
    List α :=
  l.take index_pos ++ List.replicate count value ++ l.drop index_pos

/-- Method `insert(pos, count, value)` with `pos` at offset `index_pos`.
If `size() + count < capacity()`: at the end position it runs
`insert_end_strong_guarantee(value)` (which constructs a single copy),
otherwise `shift_and_construct(index_pos, value, count)`.
Otherwise the growth loop runs — note its condition is
`while (capacity_ < size_)`, taking no account of `count` — then
`reallocate_strong_guarantee(capacity_)` and
`shift_and_construct(index_pos, value, count)`.
Returns the new state, the offset of the returned iterator
(`count == 0 ? pos : iterator(data_ + pos_index_position)` — both are the
offset `index_pos`), and whether a reallocation happened. -/
def insert_count (v : vector α) (index_pos count : Nat) (value : α) :
    vector α × Nat × Bool :=
  if v.size + count < v.capacity then
    if index_pos = v.size then
      (({ v with elems := v.elems ++ [value] } : vector α), index_pos, false)
    else
      ({ v with elems := shift_construct_list v.elems index_pos count value },
       index_pos, false)
  else
    let grown := grow_capacity v.capacity v.size
    let v' := v.relocate grown
    ({ v' with elems := shift_construct_list v'.elems index_pos count value },
     index_pos, true)

/-- Method `erase(first, last)` with the iterators at offsets `first ≤ last ≤ size`.
`last_equals_end` is captured before mutation; the elements in
`[first, last)` are destroyed; the tail `[last, size)` is shifted
(move or copy) down to `first`; `size_ -= last - first`.  The returned
iterator is `data_ + last_position` when `last` equalled `end()` and
`data_ + first_position` otherwise; the second component is that offset. -/
def erase_range (v : vector α) (first last : Nat) : vector α × Nat :=
  let last_equals_end := last = v.size
  ({ v with elems := v.elems.take first ++ v.elems.drop last },
   if last_equals_end then last else first)

/-- Operator `==`: `first.size_ == second.size_ && std::equal(first.data_,
first.data_ + first.size(), second.data_, second.data_ + second.size())`. -/
def eq_op [DecidableEq α] (first second : vector α) : Bool :=
  first.size == second.size && first.elems == second.elems

/-- Model of `std::lexicographical_compare` over two element ranges: while both ranges
are nonempty, a smaller head decides `true`, a greater head decides `false`,
equal heads recurse; at the end, `true` iff the first range is exhausted and
the second is not. -/
def lex_compare [LinearOrder α] : List α → List α → Bool
  | _, [] => false
  | [], _ :: _ => true
  | x :: xs, y :: ys =>
    if x < y then true else if y < x then false else lex_compare xs ys

/-- Operator `<`: `std::lexicographical_compare(data_, data_ + size(),
other.begin(), other.end())`. -/
def lt_op [LinearOrder α] (v other : vector α) : Bool :=
  lex_compare v.elems other.elems

/-- Operator `!=`, body `return *this != other;` — the operator calls itself
with the same arguments.  Modelled with explicit fuel: each recursive call
consumes one unit, and `none` means the computation has not produced an
answer within the given depth. -/
def ne_op_fuel : Nat → vector α → vector α → Option Bool
  | 0, _, _ => none
  | fuel + 1, v, other => ne_op_fuel fuel v other

/-- Operator `>=`, body `return *this >= other;` — calls itself with the same
arguments; fuel-instrumented as for `ne_op_fuel`. -/
def ge_op_fuel : Nat → vector α → vector α → Option Bool
  | 0, _, _ => none
  | fuel + 1, v, other => ge_op_fuel fuel v other

/-- Operator `>`, body `return *this >= other;` — delegates to
`operator>=`. -/
def gt_op_fuel : Nat → vector α → vector α → Option Bool
  | 0, _, _ => none
  | fuel + 1, v, other => ge_op_fuel fuel v other

/-- Operator `<=`, body `return other >= *this;` — delegates to
`operator>=` with the arguments swapped. -/
def le_op_fuel : Nat → vector α → vector α → Option Bool
  | 0, _, _ => none
  | fuel + 1, v, other => ge_op_fuel fuel other v

end vector

/-! ### Heap-accounted model of `reallocate_strong_guarantee`

To settle the no-leak part of the strong guarantee, allocator activity is
made explicit: a heap is a list of allocated blocks, each recording its
address, its slot count, and how many constructed (live) objects it currently
holds.  `allocate`/`deallocate` add and remove blocks; `construct`/`destroy`
adjust the live-object count of a block.  "No leak" on a failure path means the
final heap equals the initial one. -/

/-- One block obtained from the allocator: its address, the slot count it was
allocated with, and the number of constructed objects currently inside it. -/
structure Block where
  addr : Nat
  slots : Nat
  objs : Nat
deriving Repr, DecidableEq

/-- The view the allocator has of memory: the blocks currently allocated. -/
abbrev Heap := List Block

/-- An address distinct from the address of every allocated block. -/
def fresh_addr (h : Heap) : Nat := (h.map Block.addr).foldr max 0 + 1

/-- Model of `allocator_traits::construct` of one object inside the block at `a`. -/
def heap_construct (h : Heap) (a : Nat) : Heap :=
  h.map fun b => if b.addr = a then { b with objs := b.objs + 1 } else b

/-- Model of `allocator_traits::destroy` of one object inside the block at `a`. -/
def heap_destroy (h : Heap) (a : Nat) : Heap :=
  h.map fun b => if b.addr = a then { b with objs := b.objs - 1 } else b

/-- Performs `n` consecutive constructions inside the block at `a`. -/
def heap_construct_n (h : Heap) (a n : Nat) : Heap :=
  (fun hh => heap_construct hh a)^[n] h

/-- Performs `n` consecutive destructions inside the block at `a`. -/
def heap_destroy_n (h : Heap) (a n : Nat) : Heap :=
  (fun hh => heap_destroy hh a)^[n] h

/-- Model of `allocator_traits::deallocate` of the block at `a`. -/
def heap_dealloc (h : Heap) (a : Nat) : Heap :=
  h.filter fun b => b.addr ≠ a

namespace vector

/-- The copy loop on the copy path of `reallocate_strong_guarantee`: `remaining`
copy constructions are still to run, the next one is the `i`-th invocation of
the copy constructor of the element type, and `copies_made` counts those already done.
`oracle i = true` iff the `i`-th copy construction succeeds; a `false` models
the constructor throwing, and the loop exits with the heap as it stands and
the `copiesMade` counter of the source. -/
def copy_loop (oracle : Nat → Bool) (a : Nat) :
    Nat → Nat → Nat → Heap → Except (Heap × Nat) Heap
  | 0, _, _, h => .ok h
  | remaining + 1, i, copies_made, h =>
    if oracle i then
      copy_loop oracle a remaining (i + 1) (copies_made + 1)
        (heap_construct h a)
    else
      .error (h, copies_made)

/-- Method `reallocate_strong_guarantee(capacity)` with explicit heap accounting.
`nothrow_move`/`copy_ctor` are the two element-type properties the source
branches on (`std::is_nothrow_move_constructible` /
`std::is_copy_constructible`); `oracle` tells which copy constructions
succeed (move constructions on the move path cannot fail).
A new block `temp` of `capacity` slots is allocated; on the move path, or on
a fully successful copy path, every live element is constructed into `temp`
in order, then `deallocate_destruct_keep_size_and_capacity` destroys the objects of the old
block and deallocates it, and the vector adopts `temp` with the
same `size_` and the new `capacity_`.  If a copy throws, the already-made
copies are destroyed, `temp` is deallocated, and the exception is rethrown
(`.error` carries the heap and the untouched vector). -/
def reallocate_strong_guarantee (nothrow_move copy_ctor : Bool)
    (oracle : Nat → Bool) (h : Heap) (v : vector α) (capacity : Nat) :
    Except (Heap × vector α) (Heap × vector α) :=
  let a := fresh_addr h
  let h1 : Heap := h ++ [⟨a, capacity, 0⟩]
  if nothrow_move || (!nothrow_move && !copy_ctor) then
    let h2 := heap_construct_n h1 a v.size
    let h3 := heap_dealloc (heap_destroy_n h2 v.addr v.size) v.addr
    .ok (h3, ⟨v.elems, capacity, a⟩)
  else
    match copy_loop oracle a v.size 0 0 h1 with
    | .error (h2, copies_made) =>
      let h3 := heap_destroy_n h2 a copies_made
      let h4 := heap_dealloc h3 a
      .error (h4, v)
    | .ok h2 =>
      let h3 := heap_dealloc (heap_destroy_n h2 v.addr v.size) v.addr
      .ok (h3, ⟨v.elems, capacity, a⟩)

end vector

/-! ### Helper lemmas -/

namespace vector

theorem grow_while_exit (c need : Nat) (h : ¬ c < need) :
    grow_while c need = c := by
  rw [grow_while, if_neg h]

theorem grow_capacity_0_0 : grow_capacity 0 0 = 2 := by
  unfold grow_capacity grow_once realloc_factor
  norm_num
  exact grow_while_exit 2 0 (by norm_num)

theorem grow_capacity_1_1 : grow_capacity 1 1 = 2 := by
  unfold grow_capacity grow_once realloc_factor
  norm_num
  exact grow_while_exit 2 1 (by norm_num)

theorem push_back_realloc (v : vector α) (x : α)
    (h : ¬ v.size + 1 < v.capacity) :
    v.push_back x =
      (⟨v.elems ++ [x], grow_capacity v.capacity (1 + v.size), v.addr + 1⟩,
        true) := by
  unfold push_back
  rw [if_neg h]
  rfl

theorem push_back_fst_elems (v : vector α) (x : α) :
    (v.push_back x).1.elems = v.elems ++ [x] := by
  unfold push_back
  split <;> rfl

theorem push_back_inv (v : vector α) (x : α) :
    (v.push_back x).1.size_le_capacity := by
  unfold push_back
  split
  · rename_i h
    simp only [size_le_capacity, size, capacity] at *
    simp only [List.length_append, List.length_cons, List.length_nil]
    omega
  · have := grow_capacity_ge v.capacity (1 + v.size)
    simp only [size_le_capacity, size, capacity, relocate] at *
    simp only [List.length_append, List.length_cons, List.length_nil]
    omega

theorem push_all_elems (ys : List α) (v : vector α) :
    (push_all v ys).elems = v.elems ++ ys := by
  induction ys generalizing v with
  | nil => simp [push_all]
  | cons y ys ih =>
    show (push_all (v.push_back y).1 ys).elems = _
    rw [ih, push_back_fst_elems]
    simp

theorem push_all_inv (ys : List α) (v : vector α)
    (hv : v.size_le_capacity) : (push_all v ys).size_le_capacity := by
  induction ys generalizing v with
  | nil => exact hv
  | cons y ys ih => exact ih _ (push_back_inv v y)

theorem push_seq_eq_push_all (xs : List α) :
    push_seq xs = push_all mk_default xs := rfl

theorem push_all_no_realloc_run (ys : List α) (w : vector α)
    (h : w.size + ys.length < w.capacity) :
    push_all_no_realloc w ys = true ∧
      push_all w ys = { w with elems := w.elems ++ ys } := by
  induction ys generalizing w with
  | nil =>
    constructor
    · rfl
    · show w = _
      simp
  | cons y ys ih =>
    have hlen : w.size + 1 < w.capacity := by
      simp only [List.length_cons] at h
      omega
    have hpb : w.push_back y = ({ w with elems := w.elems ++ [y] }, false) := by
      unfold push_back
      rw [if_pos hlen]
    have hrec := ih { w with elems := w.elems ++ [y] }
      (by simp only [size, capacity, List.length_append, List.length_cons,
            List.length_nil, List.length_cons] at *; omega)
    constructor
    · show (!(w.push_back y).2 && _) = true
      rw [hpb]
      simpa using hrec.1
    · show push_all (w.push_back y).1 ys = _
      rw [hpb]
      simp only at hrec
      rw [hrec.2]
      simp

end vector

/-! ### Claims -/

namespace vector

/-- C2: starting from a default-constructed vector, after the calls
`push_back` for each element of `xs` in order, the stored elements are
exactly `xs` (so `size()` equals the number of calls), and after every
prefix of the calls the invariant `size ≤ capacity` holds. -/
theorem push_back_sequence_spec (xs : List Nat) (n : Nat) :
    (push_seq xs).elems = xs ∧ (push_seq xs).size = xs.length ∧
      (push_seq (xs.take n)).size_le_capacity := by
  refine ⟨?_, ?_, ?_⟩
  · rw [push_seq_eq_push_all, push_all_elems]
    rfl
  · rw [size, push_seq_eq_push_all, push_all_elems]
    rfl
  · rw [push_seq_eq_push_all]
    exact push_all_inv _ _ (by simp [mk_default, size_le_capacity, size, capacity])

/-- C8: checked access `at(index)` returns element `index` when
`index < size()` and throws `out_of_range` when `index ≥ size()`; being a
non-mutating access, the vector state is the same afterwards in both
cases. -/
theorem at_checked_access (v : vector Nat) (i : Nat) :
    (i < v.size → v.at_idx i = .ok (v.elems.getD i default)) ∧
      (v.size ≤ i → v.at_idx i = .error ()) := by
  constructor
  · intro h
    simp [at_idx, h]
  · intro h
    simp [at_idx, Nat.not_lt.mpr h]

/-- C8 witness: on the two-element vector `[3, 4]`, `at(1)` yields `4` and
`at(5)` throws. -/
theorem at_checked_access_witness :
    (1 < (⟨[3, 4], 2, 1⟩ : vector Nat).size ∧
        (⟨[3, 4], 2, 1⟩ : vector Nat).at_idx 1 = .ok 4) ∧
      ((⟨[3, 4], 2, 1⟩ : vector Nat).size ≤ 5 ∧
        (⟨[3, 4], 2, 1⟩ : vector Nat).at_idx 5 = .error ()) :=
  ⟨⟨by decide, (at_checked_access ⟨[3, 4], 2, 1⟩ 1).1 (by decide)⟩,
    ⟨by decide, (at_checked_access ⟨[3, 4], 2, 1⟩ 5).2 (by decide)⟩⟩

/-- C10: `data()` returns the null pointer exactly when `size() == 0` — even
when a buffer of nonzero capacity is allocated — and otherwise returns the
base address of the buffer. -/
theorem data_null_iff_size_zero (v : vector Nat) :
    (v.size = 0 → v.data = none) ∧ (v.size ≠ 0 → v.data = some v.addr) := by
  constructor
  · intro h
    simp [data, h]
  · intro h
    simp [data, h]

/-- C10 witness: a size-0 vector whose buffer has capacity 5 yields the null
pointer from `data()`; a one-element vector yields its buffer address. -/
theorem data_null_iff_size_zero_witness :
    ((⟨[], 5, 1⟩ : vector Nat).size = 0 ∧
        (⟨[], 5, 1⟩ : vector Nat).data = none) ∧
      ((⟨[7], 5, 1⟩ : vector Nat).size ≠ 0 ∧
        (⟨[7], 5, 1⟩ : vector Nat).data = some 1) :=
  ⟨⟨by decide, (data_null_iff_size_zero ⟨[], 5, 1⟩).1 (by decide)⟩,
    ⟨by decide, (data_null_iff_size_zero ⟨[7], 5, 1⟩).2 (by decide)⟩⟩

/-- C9 (amended): `clear()` destroys all live elements and zeroes `size_`
while leaving `capacity_` and the buffer untouched; after constructing from
an initializer list of length at least 2 and clearing, a `push_back`
completes without reallocating (the code reallocates unless
`size() + 1 < capacity()`, so capacity 1 is not enough). -/
theorem clear_frame_then_push_back (xs : List Nat) (x : Nat)
    (h : 2 ≤ xs.length) :
    (∀ v : vector Nat, v.clear = ⟨[], v.capacity_, v.addr⟩) ∧
      (of_init_list xs).clear = ⟨[], xs.length, 1⟩ ∧
      (of_init_list xs).clear.push_back x = (⟨[x], xs.length, 1⟩, false) := by
  refine ⟨fun v => rfl, rfl, ?_⟩
  unfold push_back
  rw [if_pos (by simpa [clear, of_init_list, size, capacity] using h)]
  rfl

/-- C9 counterexample: constructing from the non-empty initializer list
`{4}` (capacity 1) and clearing leaves `size() + 1 < capacity()` false, so
the subsequent `push_back(42)` reallocates (capacity 2, new address). -/
theorem clear_capacity_one_push_reallocates :
    (of_init_list [4] : vector Nat).clear.push_back 42 =
      (⟨[42], 2, 2⟩, true) := by
  show (⟨[], 1, 1⟩ : vector Nat).push_back 42 = _
  rw [push_back_realloc _ _ (by decide)]
  show ((⟨[42], grow_capacity 1 1, 2⟩ : vector Nat), true) = _
  rw [grow_capacity_1_1]

/-- C9 witness: the initializer list `{4, 8, 1, 5, 0, 3}` of the concrete
test scenario — after `clear()`, `push_back(42)` succeeds without
reallocating. -/
theorem clear_frame_then_push_back_witness :
    2 ≤ ([4, 8, 1, 5, 0, 3] : List Nat).length ∧
      (of_init_list [4, 8, 1, 5, 0, 3] : vector Nat).clear.push_back 42 =
        (⟨[42], 6, 1⟩, false) :=
  ⟨by decide,
    (clear_frame_then_push_back [4, 8, 1, 5, 0, 3] 42 (by decide)).2.2⟩

theorem insert_count_empty_five_eval :
    insert_count (mk_default : vector Nat) 0 5 7 =
      (⟨[7, 7, 7, 7, 7], 2, 1⟩, 0, true) := by
  unfold insert_count
  rw [if_neg (by decide)]
  show ((⟨shift_construct_list ([] : List Nat) 0 5 7, grow_capacity 0 0, 1⟩ :
    vector Nat), 0, true) = _
  rw [grow_capacity_0_0]
  rfl

/-- C3: `insert(begin(), 5, 7)` on a default-constructed vector breaks the
invariant `size ≤ capacity`: the growth loop condition
`while (capacity_ < size_)` ignores `count`, so the capacity only reaches 2
while `shift_and_construct` raises the size to 5 (writing past the allocated
block). -/
theorem insert_count_breaks_invariant :
    ¬ (insert_count (mk_default : vector Nat) 0 5 7).1.size_le_capacity ∧
      (insert_count (mk_default : vector Nat) 0 5 7).1 =
        ⟨[7, 7, 7, 7, 7], 2, 1⟩ := by
  rw [insert_count_empty_five_eval]
  exact ⟨by decide, rfl⟩

/-- C5: on the same call, a capacity increase was required and performed
(the reallocation flag is set), yet the new capacity 2 is below the required
minimum `size() + count = 5`: the growth loop of
`insert(pos, count, value)` never consults `count`. -/
theorem insert_count_growth_below_required :
    (insert_count (mk_default : vector Nat) 0 5 7).2.2 = true ∧
      (insert_count (mk_default : vector Nat) 0 5 7).1.capacity <
        (mk_default : vector Nat).size + 5 := by
  rw [insert_count_empty_five_eval]
  exact ⟨rfl, by decide⟩

/-- C6: erasing `[1, 3)` from the three-element vector `[1, 2, 3]` (so the
erased range reaches `end()`) leaves `[1]` with size 1, but the returned
iterator sits at offset 3 — the pre-erase `end()` — which is past the new
`end()` at offset 1, not equal to it as specified. -/
theorem erase_range_at_end_stale_iterator :
    erase_range (⟨[1, 2, 3], 3, 0⟩ : vector Nat) 1 3 = (⟨[1], 3, 0⟩, 3) ∧
      (erase_range (⟨[1, 2, 3], 3, 0⟩ : vector Nat) 1 3).1.size = 1 := by
  constructor <;> decide

theorem ge_op_fuel_none (fuel : Nat) (a b : vector α) :
    ge_op_fuel fuel a b = none := by
  induction fuel with
  | zero => rfl
  | succ n ih => exact ih

theorem ne_op_fuel_none (fuel : Nat) (a b : vector α) :
    ne_op_fuel fuel a b = none := by
  induction fuel with
  | zero => rfl
  | succ n ih => exact ih

/-- C7: `operator==` and `operator<` do decide equality and lexicographic
order, but `operator!=`, `operator>`, `operator>=` and `operator<=` call
themselves (directly or via `operator>=`) with unchanged arguments: no
recursion depth ever produces an answer, so none of the four terminates on
any pair of vectors. -/
theorem comparison_operators_diverge :
    (∀ (fuel : Nat) (a b : vector Nat),
        ne_op_fuel fuel a b = none ∧ ge_op_fuel fuel a b = none ∧
          gt_op_fuel fuel a b = none ∧ le_op_fuel fuel a b = none) ∧
      eq_op (⟨[1, 2], 2, 0⟩ : vector Nat) ⟨[1, 2], 4, 5⟩ = true ∧
      eq_op (⟨[1, 2], 2, 0⟩ : vector Nat) ⟨[1, 3], 2, 0⟩ = false ∧
      lt_op (⟨[1, 2], 2, 0⟩ : vector Nat) ⟨[1, 3], 2, 0⟩ = true ∧
      lt_op (⟨[1, 3], 2, 0⟩ : vector Nat) ⟨[1, 2], 4, 5⟩ = false := by
  refine ⟨fun fuel a b => ⟨ne_op_fuel_none fuel a b, ge_op_fuel_none fuel a b,
    ?_, ?_⟩, by decide, by decide, by decide, by decide⟩
  · cases fuel with
    | zero => rfl
    | succ n => exact ge_op_fuel_none n a b
  · cases fuel with
    | zero => rfl
    | succ n => exact ge_op_fuel_none n b a

end vector

/-! ### Strong guarantee of the copy-path reallocation (C1) -/

theorem destroy_construct_block (a : Nat) (b : Block) :
    (fun bb : Block =>
        if bb.addr = a then { bb with objs := bb.objs - 1 } else bb)
      ((fun bb : Block =>
        if bb.addr = a then { bb with objs := bb.objs + 1 } else bb) b)
      = b := by
  by_cases hb : b.addr = a
  · simp only [hb, if_pos]
    simp
    rw [← hb]
  · simp [hb]

theorem heap_destroy_construct (h : Heap) (a : Nat) :
    heap_destroy (heap_construct h a) a = h := by
  induction h with
  | nil => rfl
  | cons b t ih =>
    show (fun bb : Block =>
        if bb.addr = a then { bb with objs := bb.objs - 1 } else bb)
      ((fun bb : Block =>
        if bb.addr = a then { bb with objs := bb.objs + 1 } else bb) b) ::
      heap_destroy (heap_construct t a) a = b :: t
    rw [destroy_construct_block a b, ih]

theorem heap_destroy_n_construct_n (h : Heap) (a k : Nat) :
    heap_destroy_n (heap_construct_n h a k) a k = h := by
  induction k with
  | zero => rfl
  | succ n ih =>
    unfold heap_destroy_n heap_construct_n at *
    rw [Function.iterate_succ_apply' (fun hh => heap_construct hh a) n h,
      Function.iterate_succ_apply (fun hh => heap_destroy hh a) n]
    show (fun hh => heap_destroy hh a)^[n]
      (heap_destroy (heap_construct _ a) a) = h
    rw [heap_destroy_construct]
    exact ih

theorem mem_le_foldr_max (l : List Nat) (x : Nat) (hx : x ∈ l) :
    x ≤ l.foldr max 0 := by
  induction l with
  | nil => cases hx
  | cons y t ih =>
    rcases List.mem_cons.mp hx with h | h
    · subst h
      exact le_max_left _ _
    · exact le_trans (ih h) (le_max_right _ _)

theorem block_addr_ne_fresh (h : Heap) (b : Block) (hb : b ∈ h) :
    b.addr ≠ fresh_addr h := by
  have := mem_le_foldr_max (h.map Block.addr) b.addr
    (List.mem_map_of_mem Block.addr hb)
  unfold fresh_addr
  omega

theorem heap_dealloc_append_fresh (h : Heap) (c : Nat) :
    heap_dealloc (h ++ [⟨fresh_addr h, c, 0⟩]) (fresh_addr h) = h := by
  unfold heap_dealloc
  rw [List.filter_append]
  have h2 : List.filter (fun b => decide (b.addr ≠ fresh_addr h))
      [(⟨fresh_addr h, c, 0⟩ : Block)] = [] := by
    simp
  rw [h2, List.append_nil]
  apply List.filter_eq_self.mpr
  intro b hb
  simpa using block_addr_ne_fresh h b hb

namespace vector

theorem copy_loop_error (oracle : Nat → Bool) (a : Nat) :
    ∀ (remaining i copies_made : Nat) (h : Heap),
      (∃ j, j < remaining ∧ oracle (i + j) = false) →
      ∃ k, copy_loop oracle a remaining i copies_made h =
        .error (heap_construct_n h a k, copies_made + k) := by
  intro remaining
  induction remaining with
  | zero =>
    intro i copies_made h ⟨j, hj, _⟩
    omega
  | succ r ih =>
    intro i copies_made h ⟨j, hj, hfalse⟩
    by_cases ho : oracle i
    · have hj0 : j ≠ 0 := by
        intro h0
        rw [h0, Nat.add_zero] at hfalse
        rw [ho] at hfalse
        cases hfalse
      obtain ⟨k, hk⟩ := ih (i + 1) (copies_made + 1) (heap_construct h a)
        ⟨j - 1, by omega, by rw [show i + 1 + (j - 1) = i + j by omega]; exact hfalse⟩
      refine ⟨k + 1, ?_⟩
      show (if oracle i then _ else _) = _
      rw [if_pos ho, hk]
      rw [show heap_construct_n (heap_construct h a) a k =
        heap_construct_n h a (k + 1) from
          (Function.iterate_succ_apply (fun hh => heap_construct hh a) k h).symm]
      rw [show copies_made + 1 + k = copies_made + (k + 1) by omega]
    · refine ⟨0, ?_⟩
      show (if oracle i then _ else _) = _
      rw [if_neg ho]
      rfl

/-- C1: during a capacity-increasing reallocation on the copy path (element
type copy-constructible, not no-throw-move-constructible), if some copy
construction throws, then every already-copied element in the new block has
been destroyed, the new block has been deallocated, and the exception is
rethrown with the heap exactly as before the call (no leak) and the vector
— its size, capacity, and element contents — exactly as before the call
(strong guarantee). -/
theorem realloc_copy_throw_strong_guarantee (h : Heap) (v : vector Nat)
    (c : Nat) (oracle : Nat → Bool)
    (hthrow : ((List.range v.size).any fun i => !oracle i) = true) :
    reallocate_strong_guarantee false true oracle h v c = .error (h, v) := by
  have hex : ∃ j, j < v.size ∧ oracle (0 + j) = false := by
    obtain ⟨i, hi, hoi⟩ := List.any_eq_true.mp hthrow
    exact ⟨i, List.mem_range.mp hi, by simpa using hoi⟩
  unfold reallocate_strong_guarantee
  obtain ⟨k, hk⟩ := copy_loop_error oracle (fresh_addr h) v.size 0 0
    (h ++ [⟨fresh_addr h, c, 0⟩]) hex
  show (match copy_loop oracle (fresh_addr h) v.size 0 0
      (h ++ [⟨fresh_addr h, c, 0⟩]) with
    | Except.error (h2, copies_made) =>
      Except.error (heap_dealloc (heap_destroy_n h2 (fresh_addr h)
        copies_made) (fresh_addr h), v)
    | Except.ok h2 =>
      Except.ok (heap_dealloc (heap_destroy_n h2 v.addr v.size) v.addr,
        (⟨v.elems, c, fresh_addr h⟩ : vector Nat))) =
    Except.error (h, v)
  rw [hk]
  show Except.error (heap_dealloc (heap_destroy_n
    (heap_construct_n (h ++ [⟨fresh_addr h, c, 0⟩]) (fresh_addr h) k)
    (fresh_addr h) (0 + k)) (fresh_addr h), v) = Except.error (h, v)
  rw [Nat.zero_add, heap_destroy_n_construct_n, heap_dealloc_append_fresh]

/-- C1 witness: two live elements, the second copy construction throws
(`oracle 1 = false`): the call rethrows with the empty heap and the vector
`[1, 2]` (capacity 2, address 1) both exactly as before. -/
theorem realloc_copy_throw_strong_guarantee_witness :
    ((List.range (⟨[1, 2], 2, 1⟩ : vector Nat).size).any
        fun i => !(!(i == 1))) = true ∧
      reallocate_strong_guarantee false true (fun i => !(i == 1)) []
        (⟨[1, 2], 2, 1⟩ : vector Nat) 4 = .error ([], ⟨[1, 2], 2, 1⟩) :=
  ⟨by decide,
    realloc_copy_throw_strong_guarantee [] ⟨[1, 2], 2, 1⟩ 4
      (fun i => !(i == 1)) (by decide)⟩

end vector

end Wingmann
